import Mathlib

/-!
Shallow embedding of `qvm2vplanx.py` (an XLSX → vplanx converter) and proofs
about its spreadsheet-extraction and document-building logic.

The Python script is modelled function by function:
* `col_to_idx`           — Excel column-letter decoding,
* `pick_sheet_file`      — worksheet selection inside the ZIP archive,
* `materializeCell`      — the per-cell logic of `read_rows_from_sheet`,
* `parse_xlsx`           — record extraction (explicit-column and header modes),
* `build_vplanx`         — XML document assembly,
* `runMain`              — the error/exit behaviour of `main`.

Python-specific semantics (string `strip`, truthiness, negative list indices
and slices, `int()` parsing, code-point string comparison) are modelled by
dedicated helpers so that each Lean definition mirrors its source line.
-/

namespace Qvm2Vplanx

/-! ### Python string/list semantics -/

/-- ASCII whitespace recognised by Python `str.strip()`. -/
def pyIsSpace (c : Char) : Bool :=
  c = ' ' || c = '\t' || c = '\n' || c = '\r' || c = '\x0b' || c = '\x0c'

/-- `str.strip()` on a list of characters: drop whitespace from both ends. -/
def pyStripL (l : List Char) : List Char :=
  (l.dropWhile pyIsSpace).rdropWhile pyIsSpace

/-- Python `str.strip()`. -/
def pyStrip (s : String) : String :=
  ⟨pyStripL s.data⟩

/-- Python `str.upper()` (basic-latin letters; the script only feeds it ASCII
column letters). -/
def pyUpper (s : String) : String :=
  ⟨s.data.map Char.toUpper⟩

/-- Python `str.lower()` (basic-latin letters). -/
def pyLower (s : String) : String :=
  ⟨s.data.map Char.toLower⟩

/-- Substring test on character lists: does `pat` occur inside `l`? -/
def containsSubL (pat : List Char) : List Char → Bool
  | [] => pat.isEmpty
  | c :: t => pat.isPrefixOf (c :: t) || containsSubL pat t

/-- Python's `pat in s` substring operator. -/
def containsSub (s pat : String) : Bool :=
  containsSubL pat.data s.data

/-- Python truthiness of an optional string (`None` and `""` are falsy). -/
def pyTruthy : Option String → Bool
  | none => false
  | some s => !(s == "")

/-- Python truthiness of an optional integer (`None` and `0` are falsy). -/
def intTruthy : Option Int → Bool
  | none => false
  | some n => !(n == 0)

/-- Python list indexing `l[i]` with negative-index wrap-around;
an unreachable index raises `IndexError`. -/
def pyGetAt (l : List α) (i : Int) : Except String α :=
  if 0 ≤ i then
    if h : i.toNat < l.length then .ok (l.get ⟨i.toNat, h⟩)
    else .error "IndexError: list index out of range"
  else
    let j : Int := (l.length : Int) + i
    if h : 0 ≤ j ∧ j.toNat < l.length then .ok (l.get ⟨j.toNat, h.2⟩)
    else .error "IndexError: list index out of range"

/-- Python slicing `l[i:]`, including negative start indices. -/
def pySliceFrom (i : Int) (l : List α) : List α :=
  if 0 ≤ i then l.drop i.toNat
  else l.drop (l.length - min (-i).toNat l.length)

/-- Decimal value of a nonempty all-digit character list, else `none`. -/
def digitsVal (l : List Char) : Option Nat :=
  if l = [] then none
  else if l.all Char.isDigit then
    some (l.foldl (fun n c => n * 10 + (c.toNat - 48)) 0)
  else none

/-- Python `int()` on a decimal string: surrounding whitespace, an optional
sign, then digits (other Python literal forms do not occur in cell indices). -/
def pyInt? (s : String) : Option Int :=
  match pyStripL s.data with
  | '-' :: rest => (digitsVal rest).map (fun n => -(n : Int))
  | '+' :: rest => (digitsVal rest).map (fun n => (n : Int))
  | t => (digitsVal t).map (fun n => (n : Int))

/-- Python code-point comparison `a <= b` on character lists (lexicographic). -/
def lexLe : List Char → List Char → Bool
  | [], _ => true
  | _ :: _, [] => false
  | a :: as, b :: bs =>
    if a.toNat < b.toNat then true
    else if b.toNat < a.toNat then false
    else lexLe as bs

/-- Python string comparison `a <= b` (by code points). -/
def pyStrLe (a b : String) : Bool :=
  lexLe a.data b.data

/-! ### `col_to_idx` -/

/-- Is `c` an ASCII uppercase letter (the regex class `[A-Z]`)? -/
def isUpperAlpha (c : Char) : Bool :=
  65 ≤ c.toNat && c.toNat ≤ 90

/-- Is `c` an ASCII letter of either case? -/
def pyIsAlpha (c : Char) : Bool :=
  isUpperAlpha c || (97 ≤ c.toNat && c.toNat ≤ 122)

/-- `col_to_idx` from the script: strip, uppercase, require `[A-Z]+`, then
fold `n = n * 26 + (ord(ch) - 64)` and return `n - 1`. -/
def col_to_idx (s : String) : Except String Nat :=
  if (pyUpper (pyStrip s)).data.isEmpty || !((pyUpper (pyStrip s)).data.all isUpperAlpha) then
    .error ("Bad column letter: " ++ s)
  else
    .ok ((pyUpper (pyStrip s)).data.foldl (fun n ch => n * 26 + (ch.toNat - 64)) 0 - 1)

/-- The value the spec ascribes to a column-letter string: base-26 with digit
value `letter - A + 1`, minus one. -/
def base26Val (l : List Char) : Nat :=
  l.foldl (fun n c => n * 26 + (c.toNat - 65 + 1)) 0 - 1

/-! ### Helper lemmas on the Python string model -/

theorem dropWhile_of_isPrefix {p : α → Bool} {r m : List α}
    (hpre : ∃ t, r ++ t = m) (hm : m.dropWhile p = m) :
    r.dropWhile p = r := by
  rcases hpre with ⟨t, rfl⟩
  cases r with
  | nil => rfl
  | cons a r' =>
    simp only [List.cons_append, List.dropWhile_cons] at hm ⊢
    by_cases hp : p a = true
    · exfalso
      simp only [hp, if_true] at hm
      have h1 := congrArg List.length hm
      have h2 := (List.dropWhile_sublist (l := r' ++ t) p).length_le
      simp only [List.length_cons] at h1
      omega
    · simp [hp]

theorem pyStripL_idem (l : List Char) : pyStripL (pyStripL l) = pyStripL l := by
  unfold pyStripL
  set m := l.dropWhile pyIsSpace with hm
  have hmfix : m.dropWhile pyIsSpace = m := by
    rw [hm]; exact List.dropWhile_idempotent pyIsSpace l
  have hpre : ∃ t, m.rdropWhile pyIsSpace ++ t = m := by
    rcases List.dropWhile_suffix (l := m.reverse) pyIsSpace with ⟨t, ht⟩
    refine ⟨t.reverse, ?_⟩
    have hrev := congrArg List.reverse ht
    simpa [List.rdropWhile] using hrev
  have h1 : (m.rdropWhile pyIsSpace).dropWhile pyIsSpace = m.rdropWhile pyIsSpace :=
    dropWhile_of_isPrefix hpre hmfix
  rw [h1]
  exact List.rdropWhile_idempotent pyIsSpace m

theorem pyStrip_idem (s : String) : pyStrip (pyStrip s) = pyStrip s := by
  unfold pyStrip
  exact congrArg String.mk (pyStripL_idem s.data)

/-- `Char.ofNat` is faithful below the surrogate range. -/
theorem toNat_charOfNat_of_lt (n : Nat) (h : n < 55296) :
    (Char.ofNat n).toNat = n := by
  have hv : n.isValidChar := Or.inl h
  rw [Char.ofNat, dif_pos hv]
  rfl

/-- Uppercasing bridges the post-`upper` `[A-Z]` test to a letter test on the
original character. -/
theorem isUpperAlpha_toUpper (c : Char) :
    isUpperAlpha (Char.toUpper c) = pyIsAlpha c := by
  unfold Char.toUpper
  by_cases h : c.toNat ≥ 97 ∧ c.toNat ≤ 122
  · rw [if_pos h]
    have hlt : c.toNat - 32 < 55296 := by omega
    refine Bool.eq_iff_iff.mpr ?_
    simp only [isUpperAlpha, pyIsAlpha, toNat_charOfNat_of_lt _ hlt,
      Bool.and_eq_true, Bool.or_eq_true, decide_eq_true_eq]
    omega
  · rw [if_neg h]
    refine Bool.eq_iff_iff.mpr ?_
    simp only [isUpperAlpha, pyIsAlpha, Bool.and_eq_true, Bool.or_eq_true,
      decide_eq_true_eq]
    omega

theorem all_isUpperAlpha_map_toUpper (l : List Char) :
    (l.map Char.toUpper).all isUpperAlpha = l.all pyIsAlpha := by
  induction l with
  | nil => rfl
  | cons a t ih =>
    simp only [List.map_cons, List.all_cons, ih, isUpperAlpha_toUpper]

theorem foldl26_congr (l : List Char) (h : l.all isUpperAlpha = true) :
    ∀ n : Nat, l.foldl (fun n ch => n * 26 + (ch.toNat - 64)) n =
      l.foldl (fun n c => n * 26 + (c.toNat - 65 + 1)) n := by
  induction l with
  | nil => intro n; rfl
  | cons a t ih =>
    intro n
    simp only [List.all_cons, Bool.and_eq_true] at h
    have ha : 65 ≤ a.toNat := by
      have := h.1
      simp only [isUpperAlpha, Bool.and_eq_true, decide_eq_true_eq] at this
      exact this.1
    simp only [List.foldl_cons]
    rw [ih h.2]
    congr 2
    omega

/-! ### Claim C5: column-letter decoding -/

/-- C5: for every string whose stripped form is a nonempty run of ASCII
letters (any case), `col_to_idx` returns the base-26 positional value with
digit value `letter - A + 1`, minus one; and it raises an error exactly when
the stripped input is empty or contains a non-letter character. -/
theorem c5_col_to_idx (s : String) :
    ((pyStrip s).data ≠ [] → (pyStrip s).data.all pyIsAlpha = true →
      col_to_idx s = .ok (base26Val (pyUpper (pyStrip s)).data))
    ∧ (((pyStrip s).data = [] ∨ (pyStrip s).data.all pyIsAlpha = false) →
      col_to_idx s = .error ("Bad column letter: " ++ s)) := by
  have hdata : (pyUpper (pyStrip s)).data = (pyStrip s).data.map Char.toUpper := rfl
  constructor
  · intro hne hall
    have h1 : (pyUpper (pyStrip s)).data.isEmpty = false := by
      rw [Bool.eq_false_iff]
      intro hc
      rw [List.isEmpty_iff] at hc
      rw [hdata] at hc
      exact hne (List.map_eq_nil_iff.mp hc)
    have h2 : (pyUpper (pyStrip s)).data.all isUpperAlpha = true := by
      rw [hdata, all_isUpperAlpha_map_toUpper]; exact hall
    unfold col_to_idx
    rw [h1, h2, base26Val, foldl26_congr _ h2]
    simp
  · intro h
    unfold col_to_idx
    have hcond : ((pyUpper (pyStrip s)).data.isEmpty
        || !((pyUpper (pyStrip s)).data.all isUpperAlpha)) = true := by
      rcases h with hnil | hall
      · have : (pyUpper (pyStrip s)).data = [] := by
          rw [hdata, hnil]; rfl
        simp [this]
      · have : (pyUpper (pyStrip s)).data.all isUpperAlpha = false := by
          rw [hdata, all_isUpperAlpha_map_toUpper]; exact hall
        simp [this]
    rw [hcond]
    simp only [if_true]

/-- C5 witness: `" ab "` strips and uppercases to `"AB"` and decodes to 27;
`"a1"` contains a non-letter and errors. -/
theorem c5_col_to_idx_witness :
    col_to_idx " ab " = .ok 27 ∧ col_to_idx "a1" = .error "Bad column letter: a1" := by
  constructor
  · have h := (c5_col_to_idx " ab ").1 (by decide) (by decide)
    have hv : base26Val (pyUpper (pyStrip " ab ")).data = 27 := by decide
    rw [h, hv]
  · exact (c5_col_to_idx "a1").2 (Or.inr (by decide))

/-! ### Lexicographic order on strings (Python comparison) -/

theorem lexLe_cons_iff (a b : Char) (as bs : List Char) :
    lexLe (a :: as) (b :: bs) = true ↔
      a.toNat < b.toNat ∨ (a.toNat = b.toNat ∧ lexLe as bs = true) := by
  have hE : lexLe (a :: as) (b :: bs)
      = (if a.toNat < b.toNat then true
         else if b.toNat < a.toNat then false else lexLe as bs) := rfl
  rw [hE]
  by_cases h1 : a.toNat < b.toNat
  · simp [h1]
  · by_cases h2 : b.toNat < a.toNat
    · rw [if_neg h1, if_pos h2]
      constructor
      · intro hc; cases hc
      · rintro (h | ⟨heq, _⟩)
        · exact absurd h h1
        · omega
    · have heq : a.toNat = b.toNat := by omega
      rw [if_neg h1, if_neg h2]
      constructor
      · intro h; exact Or.inr ⟨heq, h⟩
      · rintro (h | ⟨_, h⟩)
        · exact absurd h h1
        · exact h

theorem lexLe_total : ∀ (a b : List Char), lexLe a b = true ∨ lexLe b a = true
  | [], _ => Or.inl rfl
  | _ :: _, [] => Or.inr rfl
  | a :: as, b :: bs => by
    rcases Nat.lt_trichotomy a.toNat b.toNat with h | h | h
    · left; rw [lexLe_cons_iff]; exact Or.inl h
    · rcases lexLe_total as bs with ih | ih
      · left; rw [lexLe_cons_iff]; exact Or.inr ⟨h, ih⟩
      · right; rw [lexLe_cons_iff]; exact Or.inr ⟨h.symm, ih⟩
    · right; rw [lexLe_cons_iff]; exact Or.inl h

theorem lexLe_trans : ∀ (a b c : List Char),
    lexLe a b = true → lexLe b c = true → lexLe a c = true
  | [], _, _, _, _ => rfl
  | _ :: _, [], _, h1, _ => by simp [lexLe] at h1
  | _ :: _, _ :: _, [], _, h2 => by simp [lexLe] at h2
  | a :: as, b :: bs, c :: cs, h1, h2 => by
    rw [lexLe_cons_iff] at h1 h2 ⊢
    rcases h1 with h1 | ⟨h1e, h1r⟩
    · rcases h2 with h2 | ⟨h2e, _⟩
      · exact Or.inl (by omega)
      · exact Or.inl (by omega)
    · rcases h2 with h2 | ⟨h2e, h2r⟩
      · exact Or.inl (by omega)
      · exact Or.inr ⟨by omega, lexLe_trans as bs cs h1r h2r⟩

/-- Python `a <= b` on strings, as a relation for sorting. -/
def pyStrLeR (a b : String) : Prop :=
  pyStrLe a b = true

instance : DecidableRel pyStrLeR :=
  fun a b => instDecidableEqBool (pyStrLe a b) true

instance : IsTotal String pyStrLeR :=
  ⟨fun a b => lexLe_total a.data b.data⟩

instance : IsTrans String pyStrLeR :=
  ⟨fun a b c => lexLe_trans a.data b.data c.data⟩

/-! ### `pick_sheet_file` -/

/-- Does `suf` end the list `l`? -/
def suffixIs (suf l : List Char) : Bool :=
  suf.reverse.isPrefixOf l.reverse

/-- Nonempty and all decimal digits. -/
def digitsNE (l : List Char) : Bool :=
  !l.isEmpty && l.all Char.isDigit

/-- The regex `xl/worksheets/sheet\d+\.xml$` used with `re.match` (anchored at
the start; `$` also matches just before one trailing newline). -/
def matchesSheetName (n : String) : Bool :=
  ("xl/worksheets/sheet".data.isPrefixOf n.data) &&
    (let rest := n.data.drop 19
     (suffixIs ".xml".data rest && digitsNE (rest.rdrop 4))
     || (suffixIs ".xml\n".data rest && digitsNE (rest.rdrop 5)))

/-- `pick_sheet_file` from the script: filter the archive's name list by the
worksheet regex, sort (Python `sorted`, lexicographic by code point), then
select at the 1-based index after bounds checks. -/
def pick_sheet_file (names : List String) (sheet_index : Int) : Except String String :=
  if (List.insertionSort pyStrLeR (names.filter matchesSheetName)).isEmpty then
    .error "No xl/worksheets/sheetN.xml files in workbook."
  else if sheet_index < 1
      || ((List.insertionSort pyStrLeR (names.filter matchesSheetName)).length : Int)
          < sheet_index then
    .error ("--sheet " ++ toString sheet_index ++ " out of range")
  else
    .ok ((List.insertionSort pyStrLeR (names.filter matchesSheetName)).getD
          (sheet_index - 1).toNat "")

/-- The ordering the claim asserts: by numeric filename suffix. -/
def sheetNumSuffix (n : String) : Nat :=
  (digitsVal ((n.data.drop 19).rdrop 4)).getD 0

/-- Worksheet selection as the claim describes it: same filtering and
indexing, but ordered by the numeric suffix of the entry name. -/
def pick_sheet_numeric (names : List String) (sheet_index : Int) : Except String String :=
  if (List.insertionSort (fun a b => sheetNumSuffix a ≤ sheetNumSuffix b)
        (names.filter matchesSheetName)).isEmpty then
    .error "No xl/worksheets/sheetN.xml files in workbook."
  else if sheet_index < 1
      || ((List.insertionSort (fun a b => sheetNumSuffix a ≤ sheetNumSuffix b)
            (names.filter matchesSheetName)).length : Int) < sheet_index then
    .error ("--sheet " ++ toString sheet_index ++ " out of range")
  else
    .ok ((List.insertionSort (fun a b => sheetNumSuffix a ≤ sheetNumSuffix b)
          (names.filter matchesSheetName)).getD (sheet_index - 1).toNat "")

/-! ### Claim C3: worksheet selection -/

/-- C3 counterexample: with ten-plus worksheets the code's `sorted` is
lexicographic, not numeric — `sheet10.xml` sorts before `sheet2.xml`, so
index 1 selects `sheet10.xml` while numeric-suffix ordering would select
`sheet2.xml`. -/
theorem c3_counterexample :
    pick_sheet_file ["xl/worksheets/sheet10.xml", "xl/worksheets/sheet2.xml"] 1
      = .ok "xl/worksheets/sheet10.xml"
    ∧ pick_sheet_numeric ["xl/worksheets/sheet10.xml", "xl/worksheets/sheet2.xml"] 1
      = .ok "xl/worksheets/sheet2.xml" :=
  ⟨rfl, rfl⟩

/-- C3 (amended): worksheet selection lists every entry matching the
worksheet pattern, orders them lexicographically by entry name, and returns
the entry at the requested 1-based index; it fails when there are no
worksheet entries and for every index outside `[1, sheet_count]`. -/
theorem c3_pick_sheet (names : List String) (sheet_index : Int) :
    (List.insertionSort pyStrLeR (names.filter matchesSheetName)).Perm
        (names.filter matchesSheetName)
    ∧ (List.insertionSort pyStrLeR (names.filter matchesSheetName)).Sorted pyStrLeR
    ∧ (names.filter matchesSheetName = [] →
        ∃ e, pick_sheet_file names sheet_index = .error e)
    ∧ (names.filter matchesSheetName ≠ [] →
        (sheet_index < 1
          ∨ ((List.insertionSort pyStrLeR (names.filter matchesSheetName)).length : Int)
              < sheet_index) →
        ∃ e, pick_sheet_file names sheet_index = .error e)
    ∧ (names.filter matchesSheetName ≠ [] →
        1 ≤ sheet_index →
        sheet_index ≤ ((List.insertionSort pyStrLeR (names.filter matchesSheetName)).length : Int) →
        pick_sheet_file names sheet_index =
          .ok ((List.insertionSort pyStrLeR (names.filter matchesSheetName)).getD
                (sheet_index - 1).toNat "")) := by
  have hperm := List.perm_insertionSort pyStrLeR (names.filter matchesSheetName)
  have hsorted := List.sorted_insertionSort pyStrLeR (names.filter matchesSheetName)
  have hnonnil : names.filter matchesSheetName ≠ [] →
      (List.insertionSort pyStrLeR (names.filter matchesSheetName)).isEmpty = false := by
    intro hne
    rw [Bool.eq_false_iff]
    intro hc
    rw [List.isEmpty_iff] at hc
    rw [hc] at hperm
    exact hne hperm.symm.eq_nil
  refine ⟨hperm, hsorted, ?_, ?_, ?_⟩
  · intro hnil
    unfold pick_sheet_file
    have hie : (List.insertionSort pyStrLeR (names.filter matchesSheetName)).isEmpty = true := by
      rw [List.isEmpty_iff]
      exact List.Perm.eq_nil (hnil ▸ hperm)
    rw [if_pos hie]
    exact ⟨_, rfl⟩
  · intro hne hout
    unfold pick_sheet_file
    have hfalse : ¬((List.insertionSort pyStrLeR (names.filter matchesSheetName)).isEmpty = true) := by
      rw [hnonnil hne]
      exact Bool.false_ne_true
    have h2 : (decide (sheet_index < 1)
        || decide (((List.insertionSort pyStrLeR (names.filter matchesSheetName)).length : Int)
            < sheet_index)) = true := by
      rcases hout with h | h
      · simp only [Bool.or_eq_true, decide_eq_true_eq]
        exact Or.inl h
      · simp only [Bool.or_eq_true, decide_eq_true_eq]
        exact Or.inr h
    rw [if_neg hfalse, if_pos h2]
    exact ⟨_, rfl⟩
  · intro hne hlo hhi
    unfold pick_sheet_file
    have hfalse : ¬((List.insertionSort pyStrLeR (names.filter matchesSheetName)).isEmpty = true) := by
      rw [hnonnil hne]
      exact Bool.false_ne_true
    have h2 : ¬((decide (sheet_index < 1)
        || decide (((List.insertionSort pyStrLeR (names.filter matchesSheetName)).length : Int)
            < sheet_index)) = true) := by
      simp only [Bool.or_eq_true, decide_eq_true_eq, not_or]
      exact ⟨not_lt.mpr hlo, not_lt.mpr hhi⟩
    rw [if_neg hfalse, if_neg h2]

/-- C3 witness: one worksheet entry — index 1 succeeds, indices 0 and 2 fail,
and an archive with no worksheet entry fails. -/
theorem c3_pick_sheet_witness :
    pick_sheet_file ["xl/worksheets/sheet1.xml"] 1 = .ok "xl/worksheets/sheet1.xml"
    ∧ (∃ e, pick_sheet_file ["xl/worksheets/sheet1.xml"] 0 = .error e)
    ∧ (∃ e, pick_sheet_file ["xl/worksheets/sheet1.xml"] 2 = .error e)
    ∧ (∃ e, pick_sheet_file ["docProps/core.xml"] 1 = .error e) := by
  refine ⟨?_, ?_, ?_, ?_⟩
  · exact (c3_pick_sheet ["xl/worksheets/sheet1.xml"] 1).2.2.2.2
      (by decide) (by decide) (by decide)
  · exact (c3_pick_sheet ["xl/worksheets/sheet1.xml"] 0).2.2.2.1
      (by decide) (Or.inl (by decide))
  · exact (c3_pick_sheet ["xl/worksheets/sheet1.xml"] 2).2.2.2.1
      (by decide) (Or.inr (by decide))
  · exact (c3_pick_sheet ["docProps/core.xml"] 1).2.2.1 (by decide)

/-! ### Cell materialization (`read_rows_from_sheet`) -/

/-- One worksheet cell as the script sees it: `sharedFlag` models
`c.get("t") == "s"`; `v` models the optional `<v>` child and its optional
text. -/
structure Cell where
  sharedFlag : Bool
  v : Option (Option String)

/-- The per-cell logic of `read_rows_from_sheet`: no value node → `""`;
shared-string cell → `int(v.text)` then `shared_strings[idx] if idx <
len(shared_strings) else ""`; otherwise `v.text or ""`. -/
def materializeCell (ss : List String) (c : Cell) : Except String String :=
  match c.v with
  | none => .ok ""
  | some txt =>
    if c.sharedFlag then
      match txt with
      | none => .error "TypeError: int() argument is None"
      | some t =>
        match pyInt? t with
        | none => .error ("ValueError: invalid literal for int(): " ++ t)
        | some idx =>
          if idx < (ss.length : Int) then pyGetAt ss idx
          else .ok ""
    else .ok (txt.getD "")

/-- A whole row: materialize each `<c>` element in order; a cell error aborts
the row (and the enclosing `read_rows_from_sheet` call). -/
def read_row (ss : List String) (cells : List Cell) : Except String (List String) :=
  cells.mapM (materializeCell ss)

/-! ### Claim C4: degraded handling of malformed cells -/

/-- C4 counterexample: a shared-string cell whose index is `-1` is outside
the table's range `[0, 2)`, yet the code materializes the *last* table entry
(Python negative indexing), not the empty string. -/
theorem c4_counterexample :
    materializeCell ["a", "b"] ⟨true, some (some "-1")⟩ = .ok "b"
    ∧ materializeCell ["a", "b"] ⟨true, some (some "-1")⟩ ≠ .ok "" := by
  constructor
  · rfl
  · intro hc
    have h1 : materializeCell ["a", "b"] ⟨true, some (some "-1")⟩ = .ok "b" := rfl
    rw [h1] at hc
    have : ("b" : String) = "" := Except.ok.inj hc
    exact absurd this (by decide)

/-- C4 (amended): a cell with no value node materializes to `""`; a
shared-string cell whose parsed index is at least the table length
materializes to `""`; a non-shared cell takes its literal text, `""` when the
text is missing. (A *negative* shared index instead wraps around from the end
of the table or raises, and a shared cell whose value text is missing or not
an integer raises — so degrading covers only the cases listed here.) -/
theorem c4_materialize (ss : List String) (c : Cell) :
    (c.v = none → materializeCell ss c = .ok "")
    ∧ (∀ t idx, c.sharedFlag = true → c.v = some (some t) → pyInt? t = some idx →
        (ss.length : Int) ≤ idx → materializeCell ss c = .ok "")
    ∧ (∀ txt, c.sharedFlag = false → c.v = some txt →
        materializeCell ss c = .ok (txt.getD "")) := by
  refine ⟨?_, ?_, ?_⟩
  · intro hv
    unfold materializeCell
    rw [hv]
  · intro t idx hs hv hparse hge
    unfold materializeCell
    rw [hv, hs]
    simp only [if_true, hparse]
    rw [if_neg (not_lt.mpr hge)]
  · intro txt hs hv
    unfold materializeCell
    rw [hv, hs]
    simp only [Bool.false_eq_true, if_false]

/-- C4 witness: the three degraded cases at concrete cells. -/
theorem c4_materialize_witness :
    materializeCell ["x"] ⟨false, none⟩ = .ok ""
    ∧ materializeCell ["x"] ⟨true, some (some "5")⟩ = .ok ""
    ∧ materializeCell ["x"] ⟨false, some none⟩ = .ok "" := by
  refine ⟨?_, ?_, ?_⟩
  · exact (c4_materialize ["x"] ⟨false, none⟩).1 rfl
  · exact (c4_materialize ["x"] ⟨true, some (some "5")⟩).2.1 "5" 5 rfl rfl (by decide) (by decide)
  · exact (c4_materialize ["x"] ⟨false, some none⟩).2.2 none rfl rfl

/-! ### Record extraction (`parse_xlsx`) -/

/-- A normalized record: `{"title": ..., "desc": ..., "link": ..., "type": ...}`. -/
structure Entry where
  title : String
  desc : String
  link : String
  type : String
  deriving DecidableEq, Repr

/-- `[str(x).strip().lower() for x in r]`. -/
def lowRow (r : List String) : List String :=
  r.map (fun x => pyLower (pyStrip x))

/-- Does a (lowered) row qualify as a header: some cell containing `"title"`
and some cell containing `"link"`? -/
def rowQualifies (low : List String) : Bool :=
  low.any (fun x => containsSub x "title") && low.any (fun x => containsSub x "link")

/-- The scan loop `for i, r in enumerate(rows[:30])`, returning the first
qualifying index. -/
def scanHdr : List (List String) → Nat → Option Nat
  | [], _ => none
  | r :: rs, i => if rowQualifies (lowRow r) then some i else scanHdr rs (i + 1)

/-- Header auto-detection over the first 30 rows. -/
def findHdr (rows : List (List String)) : Option Nat :=
  scanHdr (rows.take 30) 0

/-- The `name_to_idx` dictionary restricted to its four possible keys. -/
structure KeyMap where
  title : Option Nat
  link : Option Nat
  description : Option Nat
  type : Option Nat
  deriving DecidableEq, Repr

def emptyKeyMap : KeyMap :=
  ⟨none, none, none, none⟩

/-- One step of the header-mapping loop: the `if/elif` chain over a single
cell `name` at column `j` (each branch also requires its key unresolved). -/
def updKey (m : KeyMap) (j : Nat) (name : String) : KeyMap :=
  if containsSub name "title" && m.title.isNone then { m with title := some j }
  else if containsSub name "link" && m.link.isNone then { m with link := some j }
  else if containsSub name "description" && m.description.isNone then
    { m with description := some j }
  else if name == "type" && m.type.isNone then { m with type := some j }
  else m

def buildKeyMapAux : KeyMap → Nat → List String → KeyMap
  | m, _, [] => m
  | m, j, n :: ns => buildKeyMapAux (updKey m j n) (j + 1) ns

/-- `for j, name in enumerate(header): ...` building `name_to_idx`. -/
def buildKeyMap (header : List String) : KeyMap :=
  buildKeyMapAux emptyKeyMap 0 header

/-- `r[i].strip() if i < len(r) else ""`. -/
def fieldAt (r : List String) (i : Nat) : String :=
  if i < r.length then pyStrip (r.getD i "") else ""

/-- Same for an optional column index (unassigned column → `""`). -/
def optFieldAt (r : List String) (i? : Option Nat) : String :=
  match i? with
  | some i => fieldAt r i
  | none => ""

/-- Header-mode emission for one data row. -/
def emitRowHdr (ti li : Nat) (di tyi : Option Nat) (r : List String) : Option Entry :=
  if fieldAt r ti = "" then none
  else some ⟨fieldAt r ti, optFieldAt r di, fieldAt r li, optFieldAt r tyi⟩

def emitHdr (ti li : Nat) (di tyi : Option Nat) (rows : List (List String)) : List Entry :=
  rows.filterMap (emitRowHdr ti li di tyi)

/-- Explicit-column emission for one data row: skip when the row does not
reach the title column, or the trimmed title is empty. -/
def emitRowExpl (ti li : Nat) (di tyi : Option Nat) (r : List String) : Option Entry :=
  if r.length ≤ ti then none
  else if pyStrip (r.getD ti "") = "" then none
  else some ⟨pyStrip (r.getD ti ""), optFieldAt r di, fieldAt r li, optFieldAt r tyi⟩

def emitExpl (ti li : Nat) (di tyi : Option Nat) (rows : List (List String)) : List Entry :=
  rows.filterMap (emitRowExpl ti li di tyi)

/-- `col_to_idx(c) if c else None` (Python truthiness: `""` and `None` skip). -/
def optIdx (c : Option String) : Except String (Option Nat) :=
  if pyTruthy c then Except.map some (col_to_idx (c.getD "")) else pure none

/-- `start_row = (header_row or 1)`. -/
def startOr1 (hr : Option Int) : Int :=
  if intTruthy hr then hr.getD 1 else 1

/-- Explicit-column mode (both `--title-col` and `--link-col` given). -/
def explicitMode (rows : List (List String)) (hr : Option Int) (tc lc : String)
    (dc yc : Option String) : Except String (List Entry) := do
  let ti ← col_to_idx tc
  let li ← col_to_idx lc
  let di ← optIdx dc
  let tyi ← optIdx yc
  let es := emitExpl ti li di tyi (pySliceFrom (startOr1 hr) rows)
  if es = [] then Except.error "No entries found using the specified column letters."
  else pure es

/-- Header-row resolution: an explicit (truthy) `--header-row` is used
directly (failing past the last row; a negative value wraps as in Python),
else the 30-row scan; paired with the data rows that follow. -/
def resolveHeader (rows : List (List String)) (hr : Option Int) :
    Except String (List String × List (List String)) :=
  if intTruthy hr then
    if (rows.length : Int) ≤ (hr.getD 1) - 1 then
      Except.error "--header-row beyond last row"
    else
      (pyGetAt rows ((hr.getD 1) - 1)).map
        (fun hrow => (lowRow hrow, pySliceFrom (hr.getD 1) rows))
  else
    match findHdr rows with
    | none => Except.error "Header with Title and Link not found."
    | some h => Except.ok (lowRow (rows.getD h []), rows.drop (h + 1))

/-- Header-mode keymap check and emission. -/
def finishHeader (hd : List String × List (List String)) : Except String (List Entry) :=
  match (buildKeyMap hd.1).title, (buildKeyMap hd.1).link with
  | some ti, some li =>
    if emitHdr ti li (buildKeyMap hd.1).description (buildKeyMap hd.1).type hd.2 = [] then
      Except.error "No entries found under the detected header row."
    else
      Except.ok (emitHdr ti li (buildKeyMap hd.1).description (buildKeyMap hd.1).type hd.2)
  | _, _ => Except.error "Header row exists but missing required Title and Link."

def headerMode (rows : List (List String)) (hr : Option Int) : Except String (List Entry) :=
  (resolveHeader rows hr).bind finishHeader

/-- `parse_xlsx` after row materialization: column-resolution mode choice and
record emission. -/
def parse_xlsx (rows : List (List String)) (header_row : Option Int)
    (title_col link_col desc_col type_col : Option String) : Except String (List Entry) :=
  if pyTruthy title_col && pyTruthy link_col then
    explicitMode rows header_row (title_col.getD "") (link_col.getD "") desc_col type_col
  else
    headerMode rows header_row

/-! ### Lemmas about the header scan -/

theorem getD_take_of_lt (l : List α) (n k : Nat) (hk : k < n) (d : α) :
    (l.take n).getD k d = l.getD k d := by
  simp only [List.getD_eq_getElem?_getD]
  rw [List.getElem?_take_of_lt hk]

theorem scanHdr_none_iff : ∀ (l : List (List String)) (i : Nat),
    scanHdr l i = none ↔ ∀ k, k < l.length → rowQualifies (lowRow (l.getD k [])) = false
  | [], i => by simp [scanHdr]
  | r :: rs, i => by
    have hE : scanHdr (r :: rs) i
        = (if rowQualifies (lowRow r) then some i else scanHdr rs (i + 1)) := rfl
    rw [hE]
    by_cases hq : rowQualifies (lowRow r) = true
    · rw [if_pos hq]
      constructor
      · intro hc; cases hc
      · intro h
        have h0 := h 0 (by simp)
        rw [List.getD_cons_zero] at h0
        rw [hq] at h0
        cases h0
    · rw [if_neg hq]
      rw [scanHdr_none_iff rs (i + 1)]
      constructor
      · intro h k hk
        cases k with
        | zero =>
          rw [List.getD_cons_zero]
          exact Bool.eq_false_iff.mpr hq
        | succ k =>
          rw [List.getD_cons_succ]
          exact h k (by simpa using hk)
      · intro h k hk
        have := h (k + 1) (by simpa using hk)
        rw [List.getD_cons_succ] at this
        exact this

theorem scanHdr_some (l : List (List String)) (i n : Nat) (h : scanHdr l i = some n) :
    ∃ k, n = i + k ∧ k < l.length ∧ rowQualifies (lowRow (l.getD k [])) = true
      ∧ ∀ j, j < k → rowQualifies (lowRow (l.getD j [])) = false := by
  induction l generalizing i with
  | nil => cases h
  | cons r rs ih =>
    have hE : scanHdr (r :: rs) i
        = (if rowQualifies (lowRow r) then some i else scanHdr rs (i + 1)) := rfl
    rw [hE] at h
    by_cases hq : rowQualifies (lowRow r) = true
    · rw [if_pos hq] at h
      refine ⟨0, ?_, by simp, ?_, fun j hj => absurd hj (Nat.not_lt_zero j)⟩
      · have := Option.some.inj h
        omega
      · rw [List.getD_cons_zero]
        exact hq
    · rw [if_neg hq] at h
      rcases ih (i + 1) h with ⟨k, hn, hk, hqk, hprev⟩
      refine ⟨k + 1, by omega, by simpa using hk, ?_, ?_⟩
      · rw [List.getD_cons_succ]
        exact hqk
      · intro j hj
        cases j with
        | zero =>
          rw [List.getD_cons_zero]
          exact Bool.eq_false_iff.mpr hq
        | succ j =>
          rw [List.getD_cons_succ]
          exact hprev j (by omega)

theorem findHdr_none_iff (rows : List (List String)) :
    findHdr rows = none ↔
      ∀ k, k < 30 → k < rows.length → rowQualifies (lowRow (rows.getD k [])) = false := by
  unfold findHdr
  rw [scanHdr_none_iff]
  constructor
  · intro h k h30 hlen
    have hk : k < (rows.take 30).length := by
      rw [List.length_take]
      omega
    have := h k hk
    rw [getD_take_of_lt rows 30 k h30] at this
    exact this
  · intro h k hk
    rw [List.length_take] at hk
    have h30 : k < 30 := lt_of_lt_of_le hk (min_le_left _ _)
    have hlen : k < rows.length := lt_of_lt_of_le hk (min_le_right _ _)
    rw [getD_take_of_lt rows 30 k h30]
    exact h k h30 hlen

theorem findHdr_some (rows : List (List String)) (h : Nat)
    (hf : findHdr rows = some h) :
    h < 30 ∧ h < rows.length ∧ rowQualifies (lowRow (rows.getD h [])) = true
      ∧ ∀ j, j < h → rowQualifies (lowRow (rows.getD j [])) = false := by
  unfold findHdr at hf
  rcases scanHdr_some _ 0 h hf with ⟨k, hn, hk, hqk, hprev⟩
  have hkh : h = k := by omega
  subst hkh
  rw [List.length_take] at hk
  have h30 : h < 30 := lt_of_lt_of_le hk (min_le_left _ _)
  have hlen : h < rows.length := lt_of_lt_of_le hk (min_le_right _ _)
  refine ⟨h30, hlen, ?_, ?_⟩
  · rw [getD_take_of_lt rows 30 h h30] at hqk
    exact hqk
  · intro j hj
    have := hprev j hj
    rw [getD_take_of_lt rows 30 j (by omega)] at this
    exact this

/-! ### Lemmas about the key map -/

theorem updKey_title_of_some (m : KeyMap) (j : Nat) (n : String) (t : Nat)
    (hmt : m.title = some t) : (updKey m j n).title = some t := by
  unfold updKey
  split_ifs with h1 h2 h3 h4 <;> simp_all

theorem updKey_title_none_pos (m : KeyMap) (j : Nat) (n : String)
    (hmt : m.title = none) (hc : containsSub n "title" = true) :
    (updKey m j n).title = some j := by
  unfold updKey
  have h1 : (containsSub n "title" && m.title.isNone) = true := by
    simp [hc, hmt]
  rw [if_pos h1]

theorem updKey_title_none_neg (m : KeyMap) (j : Nat) (n : String)
    (hmt : m.title = none) (hc : containsSub n "title" = false) :
    (updKey m j n).title = none := by
  unfold updKey
  split_ifs with h1 h2 h3 h4 <;> simp_all

/-- Index of the first list element satisfying `p`. -/
def firstIdxWith (p : String → Bool) : List String → Option Nat
  | [] => none
  | x :: xs => if p x then some 0 else (firstIdxWith p xs).map (· + 1)

theorem buildKeyMapAux_title : ∀ (header : List String) (m : KeyMap) (j : Nat),
    (buildKeyMapAux m j header).title
      = match m.title with
        | some t => some t
        | none => (firstIdxWith (fun x => containsSub x "title") header).map (fun k => j + k)
  | [], m, j => by
    cases hmt : m.title <;> simp [buildKeyMapAux, firstIdxWith, hmt]
  | n :: ns, m, j => by
    have hE : buildKeyMapAux m j (n :: ns) = buildKeyMapAux (updKey m j n) (j + 1) ns := rfl
    rw [hE, buildKeyMapAux_title ns (updKey m j n) (j + 1)]
    cases hmt : m.title with
    | some t =>
      rw [updKey_title_of_some m j n t hmt]
    | none =>
      have hE2 : firstIdxWith (fun x => containsSub x "title") (n :: ns)
          = (if containsSub n "title" = true then some 0
             else (firstIdxWith (fun x => containsSub x "title") ns).map (· + 1)) := rfl
      by_cases hc : containsSub n "title" = true
      · rw [updKey_title_none_pos m j n hmt hc]
        rw [hE2, if_pos hc]
        simp
      · have hcf : containsSub n "title" = false := Bool.eq_false_iff.mpr hc
        rw [updKey_title_none_neg m j n hmt hcf]
        rw [hE2, if_neg hc]
        cases hfi : firstIdxWith (fun x => containsSub x "title") ns with
        | none => simp
        | some a =>
          simp
          omega

/-- The `title` key resolves to the first cell containing `"title"`. -/
theorem buildKeyMap_title (header : List String) :
    (buildKeyMap header).title = firstIdxWith (fun x => containsSub x "title") header := by
  unfold buildKeyMap
  rw [buildKeyMapAux_title]
  cases hfi : firstIdxWith (fun x => containsSub x "title") header with
  | none => simp [emptyKeyMap]
  | some a => simp [emptyKeyMap]

/-! ### Mode-selection and header-mode equations -/

theorem parse_detect_eq (rows : List (List String)) :
    parse_xlsx rows none none none none none = headerMode rows none := rfl

theorem headerMode_detect_none (rows : List (List String))
    (hf : findHdr rows = none) :
    headerMode rows none = .error "Header with Title and Link not found." := by
  unfold headerMode resolveHeader
  have hT : intTruthy (none : Option Int) = false := rfl
  rw [hT]
  simp only [Bool.false_eq_true, if_false]
  rw [hf]
  rfl

theorem headerMode_detect_some (rows : List (List String)) (h : Nat)
    (hf : findHdr rows = some h) :
    headerMode rows none = finishHeader (lowRow (rows.getD h []), rows.drop (h + 1)) := by
  unfold headerMode resolveHeader
  have hT : intTruthy (none : Option Int) = false := rfl
  rw [hT]
  simp only [Bool.false_eq_true, if_false]
  rw [hf]
  rfl

theorem finishHeader_missing (hd : List String × List (List String))
    (h : (buildKeyMap hd.1).title = none ∨ (buildKeyMap hd.1).link = none) :
    finishHeader hd = .error "Header row exists but missing required Title and Link." := by
  unfold finishHeader
  rcases h with h | h
  · rw [h]
  · cases ht : (buildKeyMap hd.1).title with
    | none => rfl
    | some ti => rw [h]

theorem finishHeader_resolved (hd : List String × List (List String)) (ti li : Nat)
    (ht : (buildKeyMap hd.1).title = some ti) (hl : (buildKeyMap hd.1).link = some li) :
    finishHeader hd =
      (if emitHdr ti li (buildKeyMap hd.1).description (buildKeyMap hd.1).type hd.2 = [] then
        .error "No entries found under the detected header row."
      else
        .ok (emitHdr ti li (buildKeyMap hd.1).description (buildKeyMap hd.1).type hd.2)) := by
  unfold finishHeader
  rw [ht, hl]

/-! ### Claim C1: header auto-detection -/

/-- C1: with no explicit columns and no header row configured, the extractor
scans the first 30 rows; it fails when no row has both a `"title"`-containing
and a `"link"`-containing cell (case-folded), otherwise it takes the first
such row as the header, builds the key map over that row (first match per
key, `title` resolving to the first `"title"`-containing cell), fails unless
both the `title` and `link` keys resolved, and emits records only from the
rows strictly after the header row. -/
theorem c1_header_detection (rows : List (List String)) :
    (findHdr rows = none ↔
      ∀ k, k < 30 → k < rows.length → rowQualifies (lowRow (rows.getD k [])) = false)
    ∧ (findHdr rows = none →
        parse_xlsx rows none none none none none
          = .error "Header with Title and Link not found.")
    ∧ ∀ h, findHdr rows = some h →
        (h < 30 ∧ h < rows.length ∧ rowQualifies (lowRow (rows.getD h [])) = true
          ∧ ∀ j, j < h → rowQualifies (lowRow (rows.getD j [])) = false)
        ∧ (buildKeyMap (lowRow (rows.getD h []))).title
            = firstIdxWith (fun x => containsSub x "title") (lowRow (rows.getD h []))
        ∧ (((buildKeyMap (lowRow (rows.getD h []))).title = none
              ∨ (buildKeyMap (lowRow (rows.getD h []))).link = none) →
            parse_xlsx rows none none none none none
              = .error "Header row exists but missing required Title and Link.")
        ∧ ∀ ti li, (buildKeyMap (lowRow (rows.getD h []))).title = some ti →
            (buildKeyMap (lowRow (rows.getD h []))).link = some li →
            parse_xlsx rows none none none none none =
              (if emitHdr ti li (buildKeyMap (lowRow (rows.getD h []))).description
                    (buildKeyMap (lowRow (rows.getD h []))).type (rows.drop (h + 1)) = [] then
                .error "No entries found under the detected header row."
              else
                .ok (emitHdr ti li (buildKeyMap (lowRow (rows.getD h []))).description
                      (buildKeyMap (lowRow (rows.getD h []))).type (rows.drop (h + 1)))) := by
  refine ⟨findHdr_none_iff rows, ?_, ?_⟩
  · intro hf
    rw [parse_detect_eq, headerMode_detect_none rows hf]
  · intro h hf
    refine ⟨findHdr_some rows h hf, buildKeyMap_title _, ?_, ?_⟩
    · intro hmiss
      rw [parse_detect_eq, headerMode_detect_some rows h hf]
      exact finishHeader_missing _ hmiss
    · intro ti li ht hl
      rw [parse_detect_eq, headerMode_detect_some rows h hf]
      exact finishHeader_resolved _ ti li ht hl

/-- C1 witness: a sheet whose second row holds the header; the junk first row
is skipped, keys resolve, and records come from the rows after the header.
Also the failing case with no qualifying row in the window. -/
theorem c1_header_detection_witness :
    parse_xlsx [["junk"], ["My Title", "The Link"], [" t1 ", " l1 "]] none none none none none
      = .ok [⟨"t1", "", "l1", ""⟩]
    ∧ parse_xlsx [["a", "b"]] none none none none none
      = .error "Header with Title and Link not found." := by
  constructor
  · have h := (((c1_header_detection
      [["junk"], ["My Title", "The Link"], [" t1 ", " l1 "]]).2.2 1 (by decide)).2.2.2
        0 1 (by decide) (by decide))
    exact h.trans rfl
  · exact (c1_header_detection [["a", "b"]]).2.1 (by decide)

/-! ### Explicit-column mode equations -/

theorem parse_explicit_eq (rows : List (List String)) (hr : Option Int) (tc lc : String)
    (htc : tc ≠ "") (hlc : lc ≠ "") (dc yc : Option String) :
    parse_xlsx rows hr (some tc) (some lc) dc yc = explicitMode rows hr tc lc dc yc := by
  unfold parse_xlsx
  have h1 : pyTruthy (some tc) = true := by simp [pyTruthy, htc]
  have h2 : pyTruthy (some lc) = true := by simp [pyTruthy, hlc]
  rw [h1, h2]
  rfl

theorem explicitMode_eq (rows : List (List String)) (hr : Option Int) (tc lc : String)
    (dc yc : Option String) (ti li : Nat) (di tyi : Option Nat)
    (hti : col_to_idx tc = .ok ti) (hli : col_to_idx lc = .ok li)
    (hdi : optIdx dc = .ok di) (htyi : optIdx yc = .ok tyi) :
    explicitMode rows hr tc lc dc yc =
      (if emitExpl ti li di tyi (pySliceFrom (startOr1 hr) rows) = [] then
        .error "No entries found using the specified column letters."
      else .ok (emitExpl ti li di tyi (pySliceFrom (startOr1 hr) rows))) := by
  unfold explicitMode
  rw [hti, hli, hdi, htyi]
  rfl

/-! ### Claim C2: explicit-column mode data start -/

/-- C2 counterexample: with no header row configured and explicit columns
A/B, the claim says scanning starts at row 1 (1-based), which on the
one-row sheet `[["t", "l"]]` would emit the record — but the code scans
`rows[(header_row or 1):]`, skipping the first row, and fails with the
empty-result error. -/
theorem c2_counterexample :
    parse_xlsx [["t", "l"]] none (some "A") (some "B") none none
      = .error "No entries found using the specified column letters."
    ∧ emitExpl 0 1 none none (pySliceFrom ((1 : Int) - 1) [["t", "l"]])
      = [⟨"t", "", "l", ""⟩] :=
  ⟨rfl, rfl⟩

/-- C2 (amended): in explicit-column mode the scan starts at the row *after*
the configured header-row value — the value acts as the 1-based header row
(equivalently, the number of leading rows to skip) — and at row 2 (the
second row) when no header row is configured, i.e. `rows[(header_row or 1):]`;
every row from there to the end is considered, a row being skipped exactly
when its length does not reach the title column index or its trimmed title
cell is empty; and the content of the skipped leading rows is never used for
column resolution. -/
theorem c2_explicit_mode (rows : List (List String)) (hr : Option Int) (tc lc : String)
    (ti li : Nat) (htc : tc ≠ "") (hlc : lc ≠ "")
    (hti : col_to_idx tc = .ok ti) (hli : col_to_idx lc = .ok li) :
    (parse_xlsx rows hr (some tc) (some lc) none none =
      (if emitExpl ti li none none (pySliceFrom (startOr1 hr) rows) = [] then
        .error "No entries found using the specified column letters."
      else .ok (emitExpl ti li none none (pySliceFrom (startOr1 hr) rows))))
    ∧ (hr = none → startOr1 hr = 1)
    ∧ (∀ r : Int, hr = some r → r ≠ 0 → startOr1 hr = r)
    ∧ (0 ≤ startOr1 hr → pySliceFrom (startOr1 hr) rows = rows.drop (startOr1 hr).toNat)
    ∧ (∀ r : List String, emitRowExpl ti li none none r = none ↔
        (r.length ≤ ti ∨ pyStrip (r.getD ti "") = ""))
    ∧ (∀ rows2 : List (List String),
        pySliceFrom (startOr1 hr) rows = pySliceFrom (startOr1 hr) rows2 →
        parse_xlsx rows hr (some tc) (some lc) none none
          = parse_xlsx rows2 hr (some tc) (some lc) none none) := by
  have hmain : ∀ rs : List (List String),
      parse_xlsx rs hr (some tc) (some lc) none none =
        (if emitExpl ti li none none (pySliceFrom (startOr1 hr) rs) = [] then
          .error "No entries found using the specified column letters."
        else .ok (emitExpl ti li none none (pySliceFrom (startOr1 hr) rs))) := by
    intro rs
    rw [parse_explicit_eq rs hr tc lc htc hlc none none]
    exact explicitMode_eq rs hr tc lc none none ti li none none hti hli rfl rfl
  refine ⟨hmain rows, ?_, ?_, ?_, ?_, ?_⟩
  · intro h
    subst h
    rfl
  · intro r h hne
    subst h
    unfold startOr1
    have : intTruthy (some r) = true := by
      simp [intTruthy, hne]
    rw [this]
    rfl
  · intro h
    unfold pySliceFrom
    rw [if_pos h]
  · intro r
    unfold emitRowExpl
    constructor
    · intro h
      split_ifs at h with h1 h2
      · exact Or.inl h1
      · exact Or.inr h2
    · intro h
      split_ifs with h1 h2
      · rfl
      · rfl
      · rcases h with h | h
        · exact absurd h h1
        · exact absurd h h2
  · intro rows2 hslice
    rw [hmain rows, hmain rows2, hslice]

/-- C2 witness: header row 1 configured with columns A/B — data starts at
row 2 and both rows after the header are emitted trimmed. -/
theorem c2_explicit_mode_witness :
    parse_xlsx [["h1", "h2"], [" x ", " y "]] (some 1) (some "A") (some "B") none none
      = .ok [⟨"x", "", "y", ""⟩] := by
  have h := (c2_explicit_mode [["h1", "h2"], [" x ", " y "]] (some 1) "A" "B" 0 1
    (by decide) (by decide) rfl rfl).1
  exact h.trans rfl

/-! ### Claim C9: partial column configuration -/

/-- C9: when fewer than both of the title/link column letters are supplied
(Python truthiness: absent or empty strings), explicit-column mode is not
entered — the result is exactly the header-mode result, independent of all
four column-letter options (so an invalid letter is never decoded or
validated) — and when both are supplied, an invalid title letter is an
error. -/
theorem c9_partial_columns (rows : List (List String)) (hr : Option Int) :
    (∀ tc lc dc yc, ¬(pyTruthy tc = true ∧ pyTruthy lc = true) →
        parse_xlsx rows hr tc lc dc yc = headerMode rows hr)
    ∧ (∀ tc lc dc yc, ¬(pyTruthy tc = true ∧ pyTruthy lc = true) →
        parse_xlsx rows hr tc lc dc yc = parse_xlsx rows hr none none none none)
    ∧ (∀ tc lc dc yc e, pyTruthy tc = true → pyTruthy lc = true →
        col_to_idx (tc.getD "") = .error e →
        parse_xlsx rows hr tc lc dc yc = .error e) := by
  have hmode : ∀ tc lc dc yc, ¬(pyTruthy tc = true ∧ pyTruthy lc = true) →
      parse_xlsx rows hr tc lc dc yc = headerMode rows hr := by
    intro tc lc dc yc h
    unfold parse_xlsx
    have hc : (pyTruthy tc && pyTruthy lc) = false := by
      cases h1 : pyTruthy tc <;> cases h2 : pyTruthy lc <;> simp_all
    rw [hc]
    rfl
  refine ⟨hmode, ?_, ?_⟩
  · intro tc lc dc yc h
    rw [hmode tc lc dc yc h, hmode none none none none (by simp [pyTruthy])]
  · intro tc lc dc yc e h1 h2 herr
    unfold parse_xlsx
    rw [h1, h2]
    have : (true && true) = true := rfl
    rw [this]
    simp only [if_true]
    unfold explicitMode
    rw [herr]
    rfl

/-- C9 witness: a lone (invalid) title letter is silently ignored and header
detection runs; supplying both letters surfaces the bad-letter error. -/
theorem c9_partial_columns_witness :
    parse_xlsx [["Title", "Link"], ["a", "b"]] none (some "!!") none none none
      = .ok [⟨"a", "", "b", ""⟩]
    ∧ parse_xlsx [["Title", "Link"], ["a", "b"]] none (some "!!") (some "B") none none
      = .error "Bad column letter: !!" := by
  constructor
  · have h := (c9_partial_columns [["Title", "Link"], ["a", "b"]] none).1
      (some "!!") none none none (by decide)
    exact h.trans rfl
  · exact (c9_partial_columns [["Title", "Link"], ["a", "b"]] none).2.2
      (some "!!") (some "B") none none "Bad column letter: !!" (by decide) (by decide) rfl

/-! ### Emission invariants and success inversions -/

theorem fieldAt_trimmed (r : List String) (i : Nat) :
    pyStrip (fieldAt r i) = fieldAt r i := by
  unfold fieldAt
  split_ifs with h
  · exact pyStrip_idem _
  · rfl

theorem optFieldAt_trimmed (r : List String) (i? : Option Nat) :
    pyStrip (optFieldAt r i?) = optFieldAt r i? := by
  unfold optFieldAt
  cases i? with
  | none => rfl
  | some i => exact fieldAt_trimmed r i

/-- Fields of a record emitted in header mode: non-empty trimmed title,
all fields trimmed. -/
theorem emitRowHdr_inv (ti li : Nat) (di tyi : Option Nat) (r : List String) (e : Entry)
    (h : emitRowHdr ti li di tyi r = some e) :
    e.title ≠ "" ∧ pyStrip e.title = e.title ∧ pyStrip e.desc = e.desc
      ∧ pyStrip e.link = e.link ∧ pyStrip e.type = e.type := by
  unfold emitRowHdr at h
  split_ifs at h with hte
  have he := Option.some.inj h
  subst he
  exact ⟨hte, fieldAt_trimmed r ti, optFieldAt_trimmed r di,
    fieldAt_trimmed r li, optFieldAt_trimmed r tyi⟩

/-- Fields of a record emitted in explicit-column mode. -/
theorem emitRowExpl_inv (ti li : Nat) (di tyi : Option Nat) (r : List String) (e : Entry)
    (h : emitRowExpl ti li di tyi r = some e) :
    e.title ≠ "" ∧ pyStrip e.title = e.title ∧ pyStrip e.desc = e.desc
      ∧ pyStrip e.link = e.link ∧ pyStrip e.type = e.type := by
  unfold emitRowExpl at h
  split_ifs at h with hlen hte
  have he := Option.some.inj h
  subst he
  exact ⟨hte, pyStrip_idem _, optFieldAt_trimmed r di,
    fieldAt_trimmed r li, optFieldAt_trimmed r tyi⟩

theorem explicitMode_ok_inv (rows : List (List String)) (hr : Option Int)
    (tc lc : String) (dc yc : Option String) (es : List Entry)
    (h : explicitMode rows hr tc lc dc yc = .ok es) :
    es ≠ [] ∧ ∃ ti li di tyi,
      es = emitExpl ti li di tyi (pySliceFrom (startOr1 hr) rows) := by
  unfold explicitMode at h
  cases hti : col_to_idx tc with
  | error e => rw [hti] at h; exact Except.noConfusion h
  | ok ti =>
    rw [hti] at h
    cases hli : col_to_idx lc with
    | error e => rw [hli] at h; exact Except.noConfusion h
    | ok li =>
      rw [hli] at h
      cases hdi : optIdx dc with
      | error e => rw [hdi] at h; exact Except.noConfusion h
      | ok di =>
        rw [hdi] at h
        cases htyi : optIdx yc with
        | error e => rw [htyi] at h; exact Except.noConfusion h
        | ok tyi =>
          rw [htyi] at h
          have h2 : (if emitExpl ti li di tyi (pySliceFrom (startOr1 hr) rows) = [] then
              (Except.error "No entries found using the specified column letters." :
                Except String (List Entry))
            else pure (emitExpl ti li di tyi (pySliceFrom (startOr1 hr) rows))) = .ok es := h
          split_ifs at h2 with hne
          have h3 : Except.ok (emitExpl ti li di tyi (pySliceFrom (startOr1 hr) rows))
              = Except.ok es := h2
          have hes := Except.ok.inj h3
          subst hes
          exact ⟨hne, ti, li, di, tyi, rfl⟩

theorem headerMode_ok_inv (rows : List (List String)) (hr : Option Int) (es : List Entry)
    (h : headerMode rows hr = .ok es) :
    es ≠ [] ∧ ∃ ti li di tyi dataRows, es = emitHdr ti li di tyi dataRows := by
  unfold headerMode at h
  cases hres : resolveHeader rows hr with
  | error e => rw [hres] at h; exact Except.noConfusion h
  | ok hd =>
    rw [hres] at h
    have h2 : finishHeader hd = .ok es := h
    unfold finishHeader at h2
    cases ht : (buildKeyMap hd.1).title with
    | none => rw [ht] at h2; exact Except.noConfusion h2
    | some ti =>
      rw [ht] at h2
      cases hl : (buildKeyMap hd.1).link with
      | none => rw [hl] at h2; exact Except.noConfusion h2
      | some li =>
        rw [hl] at h2
        have h3 : (if emitHdr ti li (buildKeyMap hd.1).description (buildKeyMap hd.1).type hd.2
              = [] then
            (Except.error "No entries found under the detected header row." :
              Except String (List Entry))
          else Except.ok (emitHdr ti li (buildKeyMap hd.1).description
                (buildKeyMap hd.1).type hd.2)) = .ok es := h2
        split_ifs at h3 with hne
        have hes := Except.ok.inj h3
        subst hes
        exact ⟨hne, ti, li, (buildKeyMap hd.1).description, (buildKeyMap hd.1).type,
          hd.2, rfl⟩

/-! ### Claim C6: every emitted record has a non-empty trimmed title -/

/-- C6: in every successful extraction — explicit-column or header mode —
every output record has a non-empty title, and all four fields are fixed
points of trimming; moreover an unassigned optional column yields `""` and a
row too short for a column yields `""` for that field. -/
theorem c6_record_invariant (rows : List (List String)) (hr : Option Int)
    (tc lc dc yc : Option String) (es : List Entry)
    (h : parse_xlsx rows hr tc lc dc yc = .ok es) :
    (∀ e ∈ es, e.title ≠ "" ∧ pyStrip e.title = e.title ∧ pyStrip e.desc = e.desc
      ∧ pyStrip e.link = e.link ∧ pyStrip e.type = e.type)
    ∧ (∀ r : List String, optFieldAt r none = "")
    ∧ (∀ (r : List String) (i : Nat), r.length ≤ i → fieldAt r i = "") := by
  refine ⟨?_, fun r => rfl, ?_⟩
  · unfold parse_xlsx at h
    split_ifs at h with hmode
    · rcases explicitMode_ok_inv _ _ _ _ _ _ _ h with ⟨hne, ti, li, di, tyi, hes⟩
      subst hes
      intro e he
      rcases List.mem_filterMap.mp he with ⟨r, hr2, hrow⟩
      exact emitRowExpl_inv ti li di tyi r e hrow
    · rcases headerMode_ok_inv _ _ _ h with ⟨hne, ti, li, di, tyi, dat, hes⟩
      subst hes
      intro e he
      rcases List.mem_filterMap.mp he with ⟨r, hr2, hrow⟩
      exact emitRowHdr_inv ti li di tyi r e hrow
  · intro r i hlen
    unfold fieldAt
    rw [if_neg (not_lt.mpr hlen)]

/-- C6 witness: a padded title and a row lacking its link cell — the record
comes out trimmed, with the missing link defaulted to `""`. -/
theorem c6_record_invariant_witness :
    (" t1 " : String) ≠ "" ∧ pyStrip "t1" = "t1" ∧ ("t1" : String) ≠ "" := by
  have h := (c6_record_invariant [["Title", "Link"], [" t1 "]] none none none none none
    [⟨"t1", "", "", ""⟩] rfl).1 ⟨"t1", "", "", ""⟩ (by simp)
  exact ⟨by decide, h.2.1, h.1⟩

/-! ### XML document model and `build_vplanx` -/

/-- An `xml.etree.ElementTree` element: tag, XML attributes, text, children. -/
inductive XElem where
  | mk : String → List (String × String) → Option String → List XElem → XElem

def XElem.tag : XElem → String
  | .mk t _ _ _ => t

def XElem.attrs : XElem → List (String × String)
  | .mk _ a _ _ => a

def XElem.text : XElem → Option String
  | .mk _ _ x _ => x

def XElem.children : XElem → List XElem
  | .mk _ _ _ c => c

/-- A leaf element holding only text. -/
def txtEl (tag txt : String) : XElem :=
  .mk tag [] (some txt) []

/-- One `<attribute><name>k</name><value>v</value></attribute>` node. -/
def attrEl (k v : String) : XElem :=
  .mk "attribute" [] none [txtEl "name" k, txtEl "value" v]

def VERSION : String := "1.2.0"

/-- The `section` subtree built per entry; `gen base`, `gen (base + 1)` and
`gen (base + 2)` are the three `uuid.uuid1()` calls made for the section, its
metricsPort and its mappingPattern, in call order. -/
def buildSection (gen : Nat → String) (base : Nat) (e : Entry) : XElem :=
  .mk "section" [("id", gen base)] none
    [ txtEl "name" e.title,
      .mk "attributes" [] none
        [attrEl "details" e.desc, attrEl "type" e.type, attrEl "planned_elements" "1"],
      .mk "metricsPort" [("id", gen (base + 1))] none
        [ txtEl "name" e.title,
          .mk "mappingPatterns" [] none
            [ .mk "mappingPattern" [("id", gen (base + 2))] none
                [ .mk "domains" [] none [txtEl "domain" "HDL"],
                  .mk "entityKinds" [] none [txtEl "entityKind" "INSTANCE"],
                  txtEl "pattern" e.link ] ] ] ]

def buildSections (gen : Nat → String) : Nat → List Entry → List XElem
  | _, [] => []
  | k, e :: es => buildSection gen k e :: buildSections gen (k + 3) es

/-- The `metaData` element; `planId`'s text reads back the `id` attribute
just written (`md.get("id")`), so both are the run's first uuid. -/
def metaDataEl (gen : Nat → String) (plan_name buildTime : String) : XElem :=
  .mk "metaData" [("id", gen 0)] none
    [ txtEl "name" plan_name, txtEl "planId" (gen 0), txtEl "sourceTool" "qvm2vplanx",
      txtEl "toolVersion" VERSION, txtEl "schemaVersion" "1.0", txtEl "buildTime" buildTime ]

/-- `build_vplanx`, with the uuid source (`gen n` = the `n`-th `uuid.uuid1()`
of the run) and the formatted build time injected. -/
def build_vplanx (gen : Nat → String) (entries : List Entry)
    (plan_name buildTime : String) : XElem :=
  .mk "vplanx:plan" [("xmlns:vplanx", "http://www.cadence.com/vplanx")] none
    [ metaDataEl gen plan_name buildTime,
      .mk "rootElements" [] none (buildSections gen 1 entries) ]

def tagIs (t : String) (x : XElem) : Bool :=
  x.tag == t

def childAt (x : XElem) (i : Nat) : XElem :=
  x.children.getD i (txtEl "" "")

def idOf (x : XElem) : Option String :=
  x.attrs.lookup "id"

theorem buildSections_length (gen : Nat → String) :
    ∀ (es : List Entry) (k : Nat), (buildSections gen k es).length = es.length
  | [], _ => rfl
  | e :: es, k => by
    have hE : buildSections gen k (e :: es)
        = buildSection gen k e :: buildSections gen (k + 3) es := rfl
    rw [hE]
    simp [buildSections_length gen es (k + 3)]

theorem buildSections_getD (gen : Nat → String) (d : XElem) :
    ∀ (es : List Entry) (k i : Nat), i < es.length →
      (buildSections gen k es).getD i d
        = buildSection gen (k + 3 * i) (es.getD i ⟨"", "", "", ""⟩)
  | [], _, i, hi => absurd hi (by simp)
  | e :: es, k, 0, _ => by
    simp [buildSections]
  | e :: es, k, i + 1, hi => by
    have hE : buildSections gen k (e :: es)
        = buildSection gen k e :: buildSections gen (k + 3) es := rfl
    rw [hE, List.getD_cons_succ, List.getD_cons_succ]
    rw [buildSections_getD gen d es (k + 3) i (by simpa using hi)]
    have : k + 3 + 3 * i = k + 3 * (i + 1) := by omega
    rw [this]

/-! ### Claim C7: document shape per record -/

/-- What the claim requires of each `section` node, stated over the claim's
own vocabulary (exactly-one filters, fixed attribute triple, fixed domain and
entity kind, pattern = the record's link). -/
def sectionMatches (e : Entry) (x : XElem) : Prop :=
  x.tag = "section"
  ∧ (x.children.filter (tagIs "name")).map XElem.text = [some e.title]
  ∧ (x.children.filter (tagIs "attributes")).map XElem.children
      = [[attrEl "details" e.desc, attrEl "type" e.type, attrEl "planned_elements" "1"]]
  ∧ ∃ p, x.children.filter (tagIs "metricsPort") = [p]
      ∧ (p.children.filter (tagIs "name")).map XElem.text = [some e.title]
      ∧ ∃ mps, p.children.filter (tagIs "mappingPatterns") = [mps]
          ∧ ∃ mpn, mps.children = [mpn]
              ∧ mpn.tag = "mappingPattern"
              ∧ (mpn.children.filter (tagIs "domains")).map XElem.children
                  = [[txtEl "domain" "HDL"]]
              ∧ (mpn.children.filter (tagIs "entityKinds")).map XElem.children
                  = [[txtEl "entityKind" "INSTANCE"]]
              ∧ (mpn.children.filter (tagIs "pattern")).map XElem.text = [some e.link]

theorem sectionMatches_buildSection (gen : Nat → String) (base : Nat) (e : Entry) :
    sectionMatches e (buildSection gen base e) :=
  ⟨rfl, rfl, rfl, _, rfl, rfl, _, rfl, _, rfl, rfl, rfl, rfl, rfl⟩

theorem buildSections_tag (gen : Nat → String) :
    ∀ (es : List Entry) (k : Nat) (x : XElem), x ∈ buildSections gen k es → x.tag = "section"
  | [], _, x, hx => absurd hx (by simp [buildSections])
  | e :: es, k, x, hx => by
    have hE : buildSections gen k (e :: es)
        = buildSection gen k e :: buildSections gen (k + 3) es := rfl
    rw [hE] at hx
    rcases List.mem_cons.mp hx with h | h
    · rw [h]; rfl
    · exact buildSections_tag gen es (k + 3) x h

/-- C7: the built document has exactly one `rootElements` node, holding
exactly one `section` per record in record order, each section shaped as the
claim describes (name = title, the three fixed attributes, one metricsPort
named by the title wrapping one mappingPattern with domain `HDL`, entity
kind `INSTANCE`, and pattern = the record's link). -/
theorem c7_document_shape (gen : Nat → String) (entries : List Entry)
    (plan_name buildTime : String) :
    ∃ re, (build_vplanx gen entries plan_name buildTime).children.filter (tagIs "rootElements")
        = [re]
      ∧ re.children.length = entries.length
      ∧ (∀ x ∈ re.children, x.tag = "section")
      ∧ ∀ i, i < entries.length →
          sectionMatches (entries.getD i ⟨"", "", "", ""⟩) (re.children.getD i (txtEl "" "")) := by
  refine ⟨XElem.mk "rootElements" [] none (buildSections gen 1 entries), rfl, ?_, ?_, ?_⟩
  · exact buildSections_length gen entries 1
  · intro x hx
    simp only [XElem.children] at hx
    exact buildSections_tag gen entries 1 x hx
  · intro i hi
    have h := buildSections_getD gen (txtEl "" "") entries 1 i hi
    simp only [XElem.children]
    rw [h]
    exact sectionMatches_buildSection gen (1 + 3 * i) _

/-- C7 witness: the spec's own example record `{title: "T1", link: "http://x"}`
produces exactly one matching section. -/
theorem c7_document_shape_witness :
    ∃ re, (build_vplanx (fun n => toString n) [⟨"T1", "", "http://x", ""⟩] "p" "ts").children.filter
        (tagIs "rootElements") = [re]
      ∧ re.children.length = 1
      ∧ sectionMatches ⟨"T1", "", "http://x", ""⟩ (re.children.getD 0 (txtEl "" "")) := by
  obtain ⟨re, h1, h2, _, h4⟩ :=
    c7_document_shape (fun n => toString n) [⟨"T1", "", "http://x", ""⟩] "p" "ts"
  exact ⟨re, h1, h2, h4 0 (by decide)⟩

/-! ### Claim C10: plan identifier reuse and fresh node identifiers -/

/-- Paths to the three identifier-bearing nodes under section `i`:
slot 0 the section, slot 1 its metricsPort, slot 2 its mappingPattern. -/
def nodeIdAt (doc : XElem) (i si : Nat) : Option String :=
  if si = 0 then idOf (childAt (childAt doc 1) i)
  else if si = 1 then idOf (childAt (childAt (childAt doc 1) i) 2)
  else idOf (childAt (childAt (childAt (childAt (childAt doc 1) i) 2) 1) 0)

/-- C10: in every built document the `planId` text equals the `metaData`
`id` attribute (the run's first uuid), while each section, metricsPort and
mappingPattern node carries uuid number `3*i + 1 + slot` — so when the uuid
source is injective (as fresh uuids are), every such node id differs from
the plan id and from every other node id. -/
theorem c10_plan_identifier (gen : Nat → String) (entries : List Entry)
    (plan_name buildTime : String) :
    ((childAt (childAt (build_vplanx gen entries plan_name buildTime) 0) 1).tag = "planId"
      ∧ (childAt (childAt (build_vplanx gen entries plan_name buildTime) 0) 1).text
          = some (gen 0)
      ∧ (childAt (build_vplanx gen entries plan_name buildTime) 0).tag = "metaData"
      ∧ idOf (childAt (build_vplanx gen entries plan_name buildTime) 0) = some (gen 0))
    ∧ (∀ i, i < entries.length →
        nodeIdAt (build_vplanx gen entries plan_name buildTime) i 0 = some (gen (3 * i + 1))
        ∧ nodeIdAt (build_vplanx gen entries plan_name buildTime) i 1 = some (gen (3 * i + 2))
        ∧ nodeIdAt (build_vplanx gen entries plan_name buildTime) i 2 = some (gen (3 * i + 3)))
    ∧ (Function.Injective gen →
        ∀ i j si sj, i < entries.length → j < entries.length → si < 3 → sj < 3 →
          (i ≠ j ∨ si ≠ sj) →
          nodeIdAt (build_vplanx gen entries plan_name buildTime) i si
            ≠ nodeIdAt (build_vplanx gen entries plan_name buildTime) j sj
          ∧ nodeIdAt (build_vplanx gen entries plan_name buildTime) i si
            ≠ idOf (childAt (build_vplanx gen entries plan_name buildTime) 0)) := by
  have hsec : ∀ i, i < entries.length →
      childAt (childAt (build_vplanx gen entries plan_name buildTime) 1) i
        = buildSection gen (1 + 3 * i) (entries.getD i ⟨"", "", "", ""⟩) := by
    intro i hi
    have h := buildSections_getD gen (txtEl "" "") entries 1 i hi
    exact h
  have hids : ∀ i, i < entries.length →
      nodeIdAt (build_vplanx gen entries plan_name buildTime) i 0 = some (gen (3 * i + 1))
      ∧ nodeIdAt (build_vplanx gen entries plan_name buildTime) i 1 = some (gen (3 * i + 2))
      ∧ nodeIdAt (build_vplanx gen entries plan_name buildTime) i 2 = some (gen (3 * i + 3)) := by
    intro i hi
    have h0 : 1 + 3 * i = 3 * i + 1 := by omega
    have h1 : 1 + 3 * i + 1 = 3 * i + 2 := by omega
    have h2 : 1 + 3 * i + 2 = 3 * i + 3 := by omega
    refine ⟨?_, ?_, ?_⟩
    · show idOf (childAt (childAt (build_vplanx gen entries plan_name buildTime) 1) i)
        = some (gen (3 * i + 1))
      rw [hsec i hi, ← h0]
      rfl
    · show idOf (childAt (childAt (childAt (build_vplanx gen entries plan_name buildTime) 1) i) 2)
        = some (gen (3 * i + 2))
      rw [hsec i hi, ← h1]
      rfl
    · show idOf (childAt (childAt (childAt (childAt (childAt
          (build_vplanx gen entries plan_name buildTime) 1) i) 2) 1) 0)
        = some (gen (3 * i + 3))
      rw [hsec i hi, ← h2]
      rfl
  refine ⟨⟨rfl, rfl, rfl, rfl⟩, hids, ?_⟩
  · intro hinj i j si sj hi hj hsi hsj hne
    have hidx : ∀ s, s < 3 → ∀ k, k < entries.length →
        nodeIdAt (build_vplanx gen entries plan_name buildTime) k s
          = some (gen (3 * k + 1 + s)) := by
      intro s hs k hk
      rcases hids k hk with ⟨e0, e1, e2⟩
      interval_cases s
      · simpa using e0
      · have : 3 * k + 1 + 1 = 3 * k + 2 := by omega
        rw [this]
        exact e1
      · have : 3 * k + 1 + 2 = 3 * k + 3 := by omega
        rw [this]
        exact e2
    rw [hidx si hsi i hi, hidx sj hsj j hj]
    have hplan : idOf (childAt (build_vplanx gen entries plan_name buildTime) 0)
        = some (gen 0) := rfl
    rw [hplan]
    constructor
    · intro hc
      have hg := Option.some.inj hc
      have := hinj hg
      omega
    · intro hc
      have hg := Option.some.inj hc
      have := hinj hg
      omega

/-- C10 witness: an injective uuid source on a one-record plan — the section
and metricsPort ids differ from each other and from the plan id. -/
theorem c10_plan_identifier_witness :
    (childAt (childAt (build_vplanx (fun n => String.mk (List.replicate n 'a'))
        [⟨"t", "", "l", ""⟩] "p" "ts") 0) 1).text = some ""
    ∧ nodeIdAt (build_vplanx (fun n => String.mk (List.replicate n 'a'))
        [⟨"t", "", "l", ""⟩] "p" "ts") 0 0
      ≠ nodeIdAt (build_vplanx (fun n => String.mk (List.replicate n 'a'))
        [⟨"t", "", "l", ""⟩] "p" "ts") 0 1 := by
  have hinj : Function.Injective (fun n => String.mk (List.replicate n 'a')) := by
    intro a b h
    have h2 := congrArg (fun s : String => s.data.length) h
    simpa using h2
  have h := c10_plan_identifier (fun n => String.mk (List.replicate n 'a'))
    [⟨"t", "", "l", ""⟩] "p" "ts"
  refine ⟨?_, ?_⟩
  · have := h.1.2.1
    simpa using this
  · exact (h.2.2 hinj 0 0 0 1 (by decide) (by decide) (by decide) (by decide)
      (Or.inr (by decide))).1

/-! ### `main` and Claim C8: empty extraction fails the run -/

/-- Outcome of a run: non-zero exit before any output, or an output file
written with the built document. -/
inductive RunResult where
  | exited (code : Nat)
  | wrote (outname : String) (doc : XElem)

/-- The tail of `main` after row materialization: a `parse_xlsx` exception is
logged and the process exits with status 2 before any document is built or
file written; otherwise the document is built and written to the default
output name `<plan_name>.vplanx`. -/
def runMain (rows : List (List String)) (hr : Option Int)
    (tc lc dc yc : Option String) (plan_name buildTime : String)
    (gen : Nat → String) : RunResult :=
  match parse_xlsx rows hr tc lc dc yc with
  | .error _ => .exited 2
  | .ok entries => .wrote (plan_name ++ ".vplanx") (build_vplanx gen entries plan_name buildTime)

/-- C8: extraction never succeeds with zero records — in explicit-column
mode an empty survivor list yields the empty-result error, in header mode
likewise — and whenever extraction fails, the run exits with status 2 and no
output is written; every written output comes from a non-empty record list. -/
theorem c8_empty_result (rows : List (List String)) (hr : Option Int)
    (tc lc dc yc : Option String) (plan_name buildTime : String) (gen : Nat → String) :
    (∀ es, parse_xlsx rows hr tc lc dc yc = .ok es → es ≠ [])
    ∧ (∀ (tc2 lc2 : String) ti li di tyi, tc2 ≠ "" → lc2 ≠ "" →
        col_to_idx tc2 = .ok ti → col_to_idx lc2 = .ok li →
        optIdx dc = .ok di → optIdx yc = .ok tyi →
        emitExpl ti li di tyi (pySliceFrom (startOr1 hr) rows) = [] →
        parse_xlsx rows hr (some tc2) (some lc2) dc yc
          = .error "No entries found using the specified column letters.")
    ∧ (∀ hd ti li, resolveHeader rows hr = .ok hd →
        (buildKeyMap hd.1).title = some ti → (buildKeyMap hd.1).link = some li →
        emitHdr ti li (buildKeyMap hd.1).description (buildKeyMap hd.1).type hd.2 = [] →
        headerMode rows hr = .error "No entries found under the detected header row.")
    ∧ (∀ e, parse_xlsx rows hr tc lc dc yc = .error e →
        runMain rows hr tc lc dc yc plan_name buildTime gen = .exited 2)
    ∧ (∀ outname doc, runMain rows hr tc lc dc yc plan_name buildTime gen
          = .wrote outname doc →
        ∃ es, parse_xlsx rows hr tc lc dc yc = .ok es ∧ es ≠ []) := by
  have hno : ∀ es, parse_xlsx rows hr tc lc dc yc = .ok es → es ≠ [] := by
    intro es h
    unfold parse_xlsx at h
    split_ifs at h with hmode
    · exact (explicitMode_ok_inv _ _ _ _ _ _ _ h).1
    · exact (headerMode_ok_inv _ _ _ h).1
  refine ⟨hno, ?_, ?_, ?_, ?_⟩
  · intro tc2 lc2 ti li di tyi htc hlc hti hli hdi htyi hemp
    rw [parse_explicit_eq rows hr tc2 lc2 htc hlc dc yc,
      explicitMode_eq rows hr tc2 lc2 dc yc ti li di tyi hti hli hdi htyi,
      if_pos hemp]
  · intro hd ti li hres ht hl hemp
    have h0 : headerMode rows hr = finishHeader hd := by
      unfold headerMode
      rw [hres]
      rfl
    rw [h0, finishHeader_resolved hd ti li ht hl, if_pos hemp]
  · intro e h
    unfold runMain
    rw [h]
  · intro outname doc h
    unfold runMain at h
    cases hp : parse_xlsx rows hr tc lc dc yc with
    | error e => rw [hp] at h; exact RunResult.noConfusion h
    | ok es =>
      rw [hp] at h
      exact ⟨es, rfl, hno es hp⟩

/-- C8 witness: an empty sheet in explicit-column mode — the empty-result
error, exit status 2, and no written output. -/
theorem c8_empty_result_witness :
    parse_xlsx [] none (some "A") (some "B") none none
      = .error "No entries found using the specified column letters."
    ∧ runMain [] none (some "A") (some "B") none none "plan" "ts" (fun n => toString n)
      = .exited 2 := by
  have hall := c8_empty_result [] none (some "A") (some "B") none none "plan" "ts"
    (fun n => toString n)
  have hp := hall.2.1 "A" "B" 0 1 none none (by decide) (by decide) rfl rfl rfl rfl rfl
  exact ⟨hp, hall.2.2.2.1 _ hp⟩

end Qvm2Vplanx
